import Mathlib

/-!
Verification of `convert-ascii-to-polygon_ecmapprob-extra.py`.

The script batch-converts ASCII raster grids into threshold-filtered vector
polygon layers inside a QGIS session.  We shallowly embed its four functions:

* `create_threshold_raster` (lines 43-71): the pure dataset transformation —
  `np.where(raster_data >= threshold_value, raster_data, np.nan)` written to a
  new dataset that copies the source's sizes, geotransform and projection.
  Cell values are modelled as rationals with an explicit `nodata` constructor
  standing for NaN (NumPy's `>=` is false on NaN, which `Val.ge` mirrors).
* the filename derivation of lines 98, 102 and 106:
  `os.path.basename(p).split('.')[0]` plus suffix strings.
* `process_thresholds` (lines 90-111): the per-raster loop, embedded as a left
  fold over the threshold list that accumulates an event trace (raster writes,
  polygonize invocations, layers added to the project registry) together with
  the returned `vector_layers` list.
* `process_rasters_in_folder` (lines 117-126): the folder loop over the
  `.asc`-filtered directory listing.

External behaviour supplied by the host (GDAL raster reading, the
`QgsVectorLayer.isValid` check, and Python's float-to-string formatting used
by the f-strings) is abstracted into an `Env` record; the script itself never
inspects those results beyond what is modelled here.
-/

namespace ThresholdScript

/-- A raster cell value: a numeric value or the NaN no-data sentinel
(`np.nan` in line 52 of the script). -/
inductive Val where
  | num (q : ℚ)
  | nodata
deriving DecidableEq, Repr

/-- NumPy's elementwise `raster_data >= threshold_value` (line 52):
a numeric cell compares normally, NaN compares false. -/
def Val.ge (v : Val) (t : ℚ) : Bool :=
  match v with
  | .num q => decide (t ≤ q)
  | .nodata => false

/-- A GDAL raster dataset as the script uses it: one band of data,
pixel sizes, affine geotransform and projection string. -/
structure RasterDS where
  rasterXSize : Nat
  rasterYSize : Nat
  geoTransform : ℚ × ℚ × ℚ × ℚ × ℚ × ℚ
  projection : String
  data : List (List Val)
deriving DecidableEq, Repr

/-- One cell of `np.where(raster_data >= threshold_value, raster_data, np.nan)`
(line 52). -/
def thresholdCell (t : ℚ) (v : Val) : Val :=
  if v.ge t then v else Val.nodata

/-- `create_threshold_raster` (lines 43-71), as the transformation from the
opened source dataset to the dataset written at the output path: the
thresholded array, and the source's `RasterXSize`, `RasterYSize`,
`GetGeoTransform()` and `GetProjection()` copied over (lines 56-59). -/
def create_threshold_raster (src : RasterDS) (t : ℚ) : RasterDS :=
  { rasterXSize := src.rasterXSize
    rasterYSize := src.rasterYSize
    geoTransform := src.geoTransform
    projection := src.projection
    data := src.data.map (fun row => row.map (thresholdCell t)) }

/-- The cell of a dataset at row `i`, column `j`, when in bounds. -/
def cellAt (r : RasterDS) (i j : Nat) : Option Val :=
  (r.data.get? i).bind (fun row => row.get? j)

/-- A cell is a data cell (non-no-data) when it holds a numeric value. -/
def isDataCell (o : Option Val) : Bool :=
  match o with
  | some (.num _) => true
  | _ => false

theorem cellAt_create_threshold_raster (src : RasterDS) (t : ℚ) (i j : Nat) :
    cellAt (create_threshold_raster src t) i j
      = (cellAt src i j).map (thresholdCell t) := by
  unfold cellAt create_threshold_raster
  simp only [List.get?_map]
  cases hrow : src.data.get? i with
  | none => simp
  | some row =>
    simp only [Option.map_some', Option.bind_some, List.get?_map]
    cases hcell : row.get? j <;> simp

/-! ### Filename derivation (lines 98, 102, 106, 119, 122) -/

/-- Split a character list at every occurrence of `c`, keeping empty pieces,
as Python's `str.split(sep)` does for a one-character separator. -/
def splitChar (c : Char) : List Char → List Char → List (List Char)
  | [], acc => [acc.reverse]
  | x :: xs, acc =>
    if x = c then acc.reverse :: splitChar c xs [] else splitChar c xs (x :: acc)

/-- `os.path.basename`: the part of the path after its last `/`. -/
def basename (p : String) : String :=
  ⟨((splitChar '/' p.data []).getLast?).getD []⟩

/-- `os.path.basename(input_raster_path).split('.')[0]` (lines 98, 102, 106):
the portion of the file's basename before its first `.`. -/
def stemOf (p : String) : String :=
  ⟨(splitChar '.' (basename p).data []).headD []⟩

/-- Python's `str.endswith('.asc')` (line 119). -/
def endsWithAsc (f : String) : Bool :=
  List.isSuffixOf ".asc".data f.data

/-- `os.path.join(input_dir, raster_file)` (line 122), for a relative name. -/
def pathJoin (dir f : String) : String := dir ++ "/" ++ f

/-- The f-string of line 98: the thresholded raster's output path. -/
def outputRasterPath (fmt : ℚ → String) (outDir inPath : String) (t : ℚ) : String :=
  outDir ++ "/" ++ stemOf inPath ++ "_threshold_" ++ fmt t ++ ".tif"

/-- The f-string of line 102: the polygon shapefile's output path. -/
def outputVectorPath (fmt : ℚ → String) (outDir inPath : String) (t : ℚ) : String :=
  outDir ++ "/" ++ stemOf inPath ++ "_threshold_" ++ fmt t ++ "_polygons.shp"

/-- The layer display name of line 106. -/
def layerDisplayName (fmt : ℚ → String) (inPath : String) (t : ℚ) : String :=
  stemOf inPath ++ "_Threshold " ++ fmt t

/-! ### Orchestration (lines 90-126) -/

/-- A `QgsVectorLayer(path, name, "ogr")` as constructed on line 106. -/
structure VectorLayer where
  path : String
  name : String
  provider : String
deriving DecidableEq, Repr

/-- Host behaviour the script relies on but does not implement:
`read` is GDAL opening a raster path and reading band 1 (on a run where every
open succeeds; a failed open propagates an uncaught fault and is outside the
trace model), `isValid` is `QgsVectorLayer.isValid()`, and `fmt` is Python's
string formatting of the numeric threshold inside the f-strings. -/
structure Env where
  read : String → RasterDS
  isValid : VectorLayer → Bool
  fmt : ℚ → String

/-- The vector layer the loop body builds for one threshold (line 106). -/
def mkLayer (env : Env) (outDir inPath : String) (t : ℚ) : VectorLayer :=
  { path := outputVectorPath env.fmt outDir inPath t
    name := layerDisplayName env.fmt inPath t
    provider := "ogr" }

/-- An observable side effect of the script: a raster dataset written to a
path (`create_threshold_raster`, lines 56-68), a `gdal:polygonize` run
(lines 79-84), or a layer added to the project registry (line 108). -/
inductive Event where
  | writeRaster (path : String) (content : RasterDS)
  | polygonize (inputPath : String) (band : Nat) (field : String) (outputPath : String)
  | addMapLayer (layer : VectorLayer)
deriving DecidableEq, Repr

/-- One iteration of the `for threshold in thresholds` loop body
(lines 94-109), acting on the accumulated `(events, vector_layers)` pair:
derive the raster path, run `create_threshold_raster`, derive the vector
path, run `gdal:polygonize`, build the `QgsVectorLayer`, and if it is valid
add it to the project and append it to `vector_layers`. -/
def thresholdStep (env : Env) (inPath outDir : String)
    (acc : List Event × List VectorLayer) (t : ℚ) :
    List Event × List VectorLayer :=
  let rp := outputRasterPath env.fmt outDir inPath t
  let written := create_threshold_raster (env.read inPath) t
  let vp := outputVectorPath env.fmt outDir inPath t
  let layer := mkLayer env outDir inPath t
  let evs := acc.1 ++ [Event.writeRaster rp written, Event.polygonize rp 1 "DN" vp]
  if env.isValid layer then
    (evs ++ [Event.addMapLayer layer], acc.2 ++ [layer])
  else
    (evs, acc.2)

/-- `process_thresholds` (lines 90-111): start from an empty `vector_layers`
list, run the loop body for each threshold in order, and return the event
trace together with the returned list of successfully loaded layers. -/
def process_thresholds (env : Env) (inPath outDir : String) (ts : List ℚ) :
    List Event × List VectorLayer :=
  ts.foldl (thresholdStep env inPath outDir) ([], [])

/-- `process_rasters_in_folder` (lines 117-126): filter the directory listing
to `.asc` files and run `process_thresholds` on each joined path in order,
discarding the returned lists; the observable outcome is the event trace. -/
def process_rasters_in_folder (env : Env) (listing : List String)
    (inputDir outDir : String) (ts : List ℚ) : List Event :=
  let raster_files := listing.filter (fun f => endsWithAsc f)
  raster_files.foldl
    (fun acc f => acc ++ (process_thresholds env (pathJoin inputDir f) outDir ts).1) []

/-! ### Trace characterizations -/

/-- The events one threshold contributes, in order: the raster write, the
polygonize call, and — only when the layer validates — the registry
addition. -/
def eventsFor (env : Env) (inPath outDir : String) (t : ℚ) : List Event :=
  [Event.writeRaster (outputRasterPath env.fmt outDir inPath t)
      (create_threshold_raster (env.read inPath) t),
   Event.polygonize (outputRasterPath env.fmt outDir inPath t) 1 "DN"
      (outputVectorPath env.fmt outDir inPath t)]
  ++ (if env.isValid (mkLayer env outDir inPath t)
      then [Event.addMapLayer (mkLayer env outDir inPath t)] else [])

theorem thresholdStep_eq (env : Env) (inPath outDir : String)
    (acc : List Event × List VectorLayer) (t : ℚ) :
    thresholdStep env inPath outDir acc t
      = (acc.1 ++ eventsFor env inPath outDir t,
         acc.2 ++ if env.isValid (mkLayer env outDir inPath t)
                  then [mkLayer env outDir inPath t] else []) := by
  unfold thresholdStep eventsFor
  cases h : env.isValid (mkLayer env outDir inPath t) <;> simp [h]

theorem process_thresholds_foldl (env : Env) (inPath outDir : String)
    (ts : List ℚ) (acc : List Event × List VectorLayer) :
    ts.foldl (thresholdStep env inPath outDir) acc
      = (acc.1 ++ ts.flatMap (eventsFor env inPath outDir),
         acc.2 ++ (ts.map (mkLayer env outDir inPath)).filter env.isValid) := by
  induction ts generalizing acc with
  | nil => simp
  | cons t ts ih =>
    simp only [List.foldl_cons, ih, thresholdStep_eq, List.flatMap_cons,
      List.map_cons, List.filter_cons]
    cases h : env.isValid (mkLayer env outDir inPath t) <;> simp [h]

theorem process_thresholds_eq (env : Env) (inPath outDir : String) (ts : List ℚ) :
    process_thresholds env inPath outDir ts
      = (ts.flatMap (eventsFor env inPath outDir),
         (ts.map (mkLayer env outDir inPath)).filter env.isValid) := by
  unfold process_thresholds
  simp [process_thresholds_foldl]

theorem process_rasters_in_folder_eq (env : Env) (listing : List String)
    (inputDir outDir : String) (ts : List ℚ) :
    process_rasters_in_folder env listing inputDir outDir ts
      = (listing.filter (fun f => endsWithAsc f)).flatMap
          (fun f => (process_thresholds env (pathJoin inputDir f) outDir ts).1) := by
  unfold process_rasters_in_folder
  generalize listing.filter (fun f => endsWithAsc f) = files
  suffices h : ∀ acc : List Event,
      files.foldl
        (fun acc f => acc ++ (process_thresholds env (pathJoin inputDir f) outDir ts).1) acc
        = acc ++ files.flatMap
            (fun f => (process_thresholds env (pathJoin inputDir f) outDir ts).1) by
    simpa using h []
  induction files with
  | nil => intro acc; simp
  | cons f fs ih => intro acc; simp [ih]

/-! ### Counting events and written artifact paths -/

/-- Whether an event is a `gdal:polygonize` invocation. -/
def isPolygonizeEvent (e : Event) : Bool :=
  match e with
  | .polygonize _ _ _ _ => true
  | _ => false

/-- Whether an event adds a layer to the project registry. -/
def isAddLayerEvent (e : Event) : Bool :=
  match e with
  | .addMapLayer _ => true
  | _ => false

/-- Number of `gdal:polygonize` runs in a trace, i.e. vector outputs
produced. -/
def countPolygonize (evs : List Event) : Nat :=
  (evs.filter isPolygonizeEvent).length

/-- Number of layers added to the project registry in a trace. -/
def countAddLayer (evs : List Event) : Nat :=
  (evs.filter isAddLayerEvent).length

/-- The file paths a trace writes, in order: the path of each raster write
and the output path of each polygonize run. -/
def artifactPaths (evs : List Event) : List String :=
  evs.filterMap (fun e =>
    match e with
    | .writeRaster p _ => some p
    | .polygonize _ _ _ out => some out
    | .addMapLayer _ => none)

theorem countPolygonize_append (a b : List Event) :
    countPolygonize (a ++ b) = countPolygonize a + countPolygonize b := by
  simp [countPolygonize, List.filter_append]

theorem countAddLayer_append (a b : List Event) :
    countAddLayer (a ++ b) = countAddLayer a + countAddLayer b := by
  simp [countAddLayer, List.filter_append]

theorem artifactPaths_append (a b : List Event) :
    artifactPaths (a ++ b) = artifactPaths a ++ artifactPaths b := by
  simp [artifactPaths, List.filterMap_append]

theorem countPolygonize_eventsFor (env : Env) (inPath outDir : String) (t : ℚ) :
    countPolygonize (eventsFor env inPath outDir t) = 1 := by
  unfold eventsFor countPolygonize
  cases h : env.isValid (mkLayer env outDir inPath t) <;>
    simp [h, List.filter_append, isPolygonizeEvent]

theorem countAddLayer_eventsFor (env : Env) (inPath outDir : String) (t : ℚ) :
    countAddLayer (eventsFor env inPath outDir t)
      = if env.isValid (mkLayer env outDir inPath t) then 1 else 0 := by
  unfold eventsFor countAddLayer
  cases h : env.isValid (mkLayer env outDir inPath t) <;>
    simp [h, List.filter_append, isAddLayerEvent]

theorem artifactPaths_eventsFor (env : Env) (inPath outDir : String) (t : ℚ) :
    artifactPaths (eventsFor env inPath outDir t)
      = [outputRasterPath env.fmt outDir inPath t,
         outputVectorPath env.fmt outDir inPath t] := by
  unfold eventsFor artifactPaths
  cases h : env.isValid (mkLayer env outDir inPath t) <;>
    simp [h, List.filterMap_append]

theorem countPolygonize_thresholds (env : Env) (inPath outDir : String)
    (ts : List ℚ) :
    countPolygonize (ts.flatMap (eventsFor env inPath outDir)) = ts.length := by
  induction ts with
  | nil => simp [countPolygonize]
  | cons t ts ih =>
    simp [countPolygonize_append, countPolygonize_eventsFor, ih]
    omega

theorem countAddLayer_thresholds_le (env : Env) (inPath outDir : String)
    (ts : List ℚ) :
    countAddLayer (ts.flatMap (eventsFor env inPath outDir)) ≤ ts.length := by
  induction ts with
  | nil => simp [countAddLayer]
  | cons t ts ih =>
    simp only [List.flatMap_cons, countAddLayer_append, List.length_cons]
    have h1 : countAddLayer (eventsFor env inPath outDir t) ≤ 1 := by
      rw [countAddLayer_eventsFor]
      split <;> omega
    omega

theorem countAddLayer_thresholds_all_valid (env : Env) (inPath outDir : String)
    (ts : List ℚ) (hv : ∀ l, env.isValid l = true) :
    countAddLayer (ts.flatMap (eventsFor env inPath outDir)) = ts.length := by
  induction ts with
  | nil => simp [countAddLayer]
  | cons t ts ih =>
    simp [countAddLayer_append, countAddLayer_eventsFor, hv, ih]
    omega

theorem artifactPaths_thresholds (env : Env) (inPath outDir : String)
    (ts : List ℚ) :
    artifactPaths (ts.flatMap (eventsFor env inPath outDir))
      = ts.flatMap (fun t =>
          [outputRasterPath env.fmt outDir inPath t,
           outputVectorPath env.fmt outDir inPath t]) := by
  induction ts with
  | nil => simp [artifactPaths]
  | cons t ts ih =>
    simp [artifactPaths_append, artifactPaths_eventsFor, ih]

/-- The output paths a whole folder run is asked to write: for each `.asc`
file and each threshold in order, the thresholded raster path then the
polygon shapefile path. -/
def plannedPaths (env : Env) (listing : List String)
    (inputDir outDir : String) (ts : List ℚ) : List String :=
  (listing.filter (fun f => endsWithAsc f)).flatMap (fun f =>
    ts.flatMap (fun t =>
      [outputRasterPath env.fmt outDir (pathJoin inputDir f) t,
       outputVectorPath env.fmt outDir (pathJoin inputDir f) t]))

theorem artifactPaths_folder (env : Env) (listing : List String)
    (inputDir outDir : String) (ts : List ℚ) :
    artifactPaths (process_rasters_in_folder env listing inputDir outDir ts)
      = plannedPaths env listing inputDir outDir ts := by
  rw [process_rasters_in_folder_eq]
  unfold plannedPaths
  generalize listing.filter (fun f => endsWithAsc f) = files
  induction files with
  | nil => simp [artifactPaths]
  | cons f fs ih =>
    simp only [List.flatMap_cons, artifactPaths_append, ih]
    simp [process_thresholds_eq, artifactPaths_thresholds]

/-! ### Splitting lemmas for the filename derivation -/

theorem splitChar_not_mem (c : Char) (l acc : List Char) (h : c ∉ l) :
    splitChar c l acc = [acc.reverse ++ l] := by
  induction l generalizing acc with
  | nil => simp [splitChar]
  | cons x xs ih =>
    rw [splitChar]
    have hx : ¬ x = c := fun he => h (he ▸ List.mem_cons_self x xs)
    rw [if_neg hx, ih _ (fun hm => h (List.mem_cons_of_mem _ hm))]
    simp

theorem splitChar_sep (c : Char) (pre rest acc : List Char) (h : c ∉ pre) :
    splitChar c (pre ++ c :: rest) acc
      = (acc.reverse ++ pre) :: splitChar c rest [] := by
  induction pre generalizing acc with
  | nil => simp [splitChar]
  | cons x xs ih =>
    rw [List.cons_append, splitChar]
    have hx : ¬ x = c := fun he => h (he ▸ List.mem_cons_self x xs)
    rw [if_neg hx, ih _ (fun hm => h (List.mem_cons_of_mem _ hm))]
    simp

theorem splitChar_ne_nil (c : Char) (l acc : List Char) :
    splitChar c l acc ≠ [] := by
  induction l generalizing acc with
  | nil => simp [splitChar]
  | cons x xs ih =>
    rw [splitChar]
    by_cases hx : x = c
    · rw [if_pos hx]; simp
    · rw [if_neg hx]; exact ih _

theorem getLast?_cons_of_ne_nil {α : Type} (a : α) {l : List α} (h : l ≠ []) :
    (a :: l).getLast? = l.getLast? := by
  cases l with
  | nil => exact absurd rfl h
  | cons b l => simp [List.getLast?_cons_cons]

theorem splitChar_getLast_sep (c : Char) (xs ys : List Char) (acc : List Char) :
    (splitChar c (xs ++ c :: ys) acc).getLast? = (splitChar c ys []).getLast? := by
  induction xs generalizing acc with
  | nil =>
    rw [List.nil_append, splitChar, if_pos rfl]
    exact getLast?_cons_of_ne_nil _ (splitChar_ne_nil c ys [])
  | cons x xs ih =>
    rw [List.cons_append, splitChar]
    by_cases hx : x = c
    · rw [if_pos hx]
      rw [getLast?_cons_of_ne_nil _ (splitChar_ne_nil c (xs ++ c :: ys) [])]
      exact ih []
    · rw [if_neg hx]
      exact ih _

theorem data_append (a b : String) : (a ++ b).data = a.data ++ b.data := rfl

theorem basename_pathJoin (dir f : String) (h : '/' ∉ f.data) :
    basename (pathJoin dir f) = f := by
  unfold basename pathJoin
  have hslash : ("/" : String).data = ['/'] := rfl
  have hdata : (dir ++ "/" ++ f).data = dir.data ++ '/' :: f.data := by
    rw [data_append, data_append, hslash, List.append_assoc]
    rfl
  rw [hdata, splitChar_getLast_sep, splitChar_not_mem _ _ _ h]
  rfl

theorem stemOf_first_dot (p : String) (pre rest : List Char)
    (hb : (basename p).data = pre ++ '.' :: rest) (h : '.' ∉ pre) :
    stemOf p = ⟨pre⟩ := by
  unfold stemOf
  rw [hb, splitChar_sep _ _ _ _ h]
  rfl

/-! ### Concrete data for witnesses -/

/-- A small concrete source raster. -/
def sampleRaster : RasterDS :=
  { rasterXSize := 2
    rasterYSize := 2
    geoTransform := (0, 1, 0, 0, 0, -1)
    projection := "EPSG:4326"
    data := [[Val.num 1, Val.nodata], [Val.num 3, Val.num 0]] }

/-- The same band array under different metadata. -/
def sampleRasterAlt : RasterDS :=
  { rasterXSize := 2
    rasterYSize := 2
    geoTransform := (5, 2, 0, 7, 0, -2)
    projection := "EPSG:32633"
    data := [[Val.num 1, Val.nodata], [Val.num 3, Val.num 0]] }

/-- A concrete host environment: every raster path opens to `sampleRaster`,
every layer validates, and thresholds 1 and 2 format as "1" and "2". -/
def sampleEnv : Env :=
  { read := fun _ => sampleRaster
    isValid := fun _ => true
    fmt := fun q => if q = 1 then "1" else if q = 2 then "2" else "x" }

/-! ### Folder-level counting lemmas -/

theorem countPolygonize_folder (env : Env) (listing : List String)
    (inputDir outDir : String) (ts : List ℚ) :
    countPolygonize (process_rasters_in_folder env listing inputDir outDir ts)
      = (listing.filter (fun f => endsWithAsc f)).length * ts.length := by
  rw [process_rasters_in_folder_eq]
  generalize listing.filter (fun f => endsWithAsc f) = files
  induction files with
  | nil => simp [countPolygonize]
  | cons f fs ih =>
    simp only [List.flatMap_cons, countPolygonize_append, ih, List.length_cons]
    have h1 : countPolygonize (process_thresholds env (pathJoin inputDir f) outDir ts).1
        = ts.length := by
      rw [process_thresholds_eq]
      exact countPolygonize_thresholds env (pathJoin inputDir f) outDir ts
    rw [h1]
    ring

theorem countAddLayer_folder_le (env : Env) (listing : List String)
    (inputDir outDir : String) (ts : List ℚ) :
    countAddLayer (process_rasters_in_folder env listing inputDir outDir ts)
      ≤ (listing.filter (fun f => endsWithAsc f)).length * ts.length := by
  rw [process_rasters_in_folder_eq]
  generalize listing.filter (fun f => endsWithAsc f) = files
  induction files with
  | nil => simp [countAddLayer]
  | cons f fs ih =>
    simp only [List.flatMap_cons, countAddLayer_append, List.length_cons]
    have h1 : countAddLayer (process_thresholds env (pathJoin inputDir f) outDir ts).1
        ≤ ts.length := by
      rw [process_thresholds_eq]
      exact countAddLayer_thresholds_le env (pathJoin inputDir f) outDir ts
    calc countAddLayer (process_thresholds env (pathJoin inputDir f) outDir ts).1
          + countAddLayer (fs.flatMap
              (fun f => (process_thresholds env (pathJoin inputDir f) outDir ts).1))
        ≤ ts.length + fs.length * ts.length := Nat.add_le_add h1 ih
      _ = (fs.length + 1) * ts.length := by ring

theorem countAddLayer_folder_all_valid (env : Env) (listing : List String)
    (inputDir outDir : String) (ts : List ℚ) (hv : ∀ l, env.isValid l = true) :
    countAddLayer (process_rasters_in_folder env listing inputDir outDir ts)
      = (listing.filter (fun f => endsWithAsc f)).length * ts.length := by
  rw [process_rasters_in_folder_eq]
  generalize listing.filter (fun f => endsWithAsc f) = files
  induction files with
  | nil => simp [countAddLayer]
  | cons f fs ih =>
    simp only [List.flatMap_cons, countAddLayer_append, ih, List.length_cons]
    have h1 : countAddLayer (process_thresholds env (pathJoin inputDir f) outDir ts).1
        = ts.length := by
      rw [process_thresholds_eq]
      exact countAddLayer_thresholds_all_valid env (pathJoin inputDir f) outDir ts hv
    rw [h1]
    ring

/-! ### Claims -/

/-- C1: for every source raster, every in-bounds cell and every threshold,
the cell written by the threshold-masking operation equals the source value
when that value compares `>=` the threshold, and the no-data marker (NaN)
otherwise. -/
theorem C1_threshold_masking_pointwise (src : RasterDS) (t : ℚ) (i j : Nat)
    (v : Val) (h : cellAt src i j = some v) :
    cellAt (create_threshold_raster src t) i j
      = some (if v.ge t then v else Val.nodata) := by
  rw [cellAt_create_threshold_raster, h, Option.map_some']
  rfl

theorem C1_witness :
    cellAt sampleRaster 1 0 = some (Val.num 3) ∧
    cellAt (create_threshold_raster sampleRaster 2) 1 0
      = some (if (Val.num 3).ge 2 then Val.num 3 else Val.nodata) :=
  ⟨by decide,
   C1_threshold_masking_pointwise sampleRaster 2 1 0 (Val.num 3) (by decide)⟩

/-- C2: the raster written by the threshold-masking operation has exactly the
source's pixel dimensions (both the dataset sizes and the array shape), its
geotransform and its projection. -/
theorem C2_metadata_preserved (src : RasterDS) (t : ℚ) :
    (create_threshold_raster src t).rasterXSize = src.rasterXSize ∧
    (create_threshold_raster src t).rasterYSize = src.rasterYSize ∧
    (create_threshold_raster src t).data.length = src.data.length ∧
    (∀ i, ((create_threshold_raster src t).data.get? i).map List.length
        = (src.data.get? i).map List.length) ∧
    (create_threshold_raster src t).geoTransform = src.geoTransform ∧
    (create_threshold_raster src t).projection = src.projection := by
  refine ⟨rfl, rfl, by simp [create_threshold_raster], ?_, rfl, rfl⟩
  intro i
  simp only [create_threshold_raster, List.get?_map]
  cases src.data.get? i <;> simp

/-- C3: masking is monotone in the threshold — for thresholds `t1 < t2`,
every cell that survives (is non-no-data in) the `t2` output also survives
the `t1` output, with the same value; hence the `t2` survivors are a subset
of the `t1` survivors. -/
theorem C3_mask_monotone (src : RasterDS) (t1 t2 : ℚ) (i j : Nat) (q : ℚ)
    (hlt : t1 < t2)
    (h2 : cellAt (create_threshold_raster src t2) i j = some (Val.num q)) :
    cellAt (create_threshold_raster src t1) i j = some (Val.num q) := by
  rw [cellAt_create_threshold_raster] at h2 ⊢
  obtain ⟨v, hsrc, hv⟩ := Option.map_eq_some'.mp h2
  rw [hsrc, Option.map_some', Option.some.injEq]
  cases v with
  | nodata => simp [thresholdCell, Val.ge] at hv
  | num r =>
    simp only [thresholdCell, Val.ge] at hv ⊢
    by_cases hge : t2 ≤ r
    · rw [if_pos (decide_eq_true hge)] at hv
      rw [if_pos (decide_eq_true (le_of_lt (lt_of_lt_of_le hlt hge)))]
      exact hv
    · rw [if_neg (by simpa using hge)] at hv
      simp at hv

theorem C3_witness :
    ((1 : ℚ) < 2) ∧
    cellAt (create_threshold_raster sampleRaster 2) 1 0 = some (Val.num 3) ∧
    cellAt (create_threshold_raster sampleRaster 1) 1 0 = some (Val.num 3) :=
  ⟨by decide, by decide,
   C3_mask_monotone sampleRaster 1 2 1 0 3 (by decide) (by decide)⟩

/-- C4: the masked output array is a deterministic function of the source
band array and the threshold alone — two runs over equal source arrays
(whatever the rest of their metadata) write value-identical arrays, so
re-running the masking step reproduces the same output. -/
theorem C4_mask_deterministic (s1 s2 : RasterDS) (t : ℚ)
    (h : s1.data = s2.data) :
    (create_threshold_raster s1 t).data = (create_threshold_raster s2 t).data := by
  simp [create_threshold_raster, h]

theorem C4_witness :
    sampleRaster.data = sampleRasterAlt.data ∧
    (create_threshold_raster sampleRaster 2).data
      = (create_threshold_raster sampleRasterAlt 2).data :=
  ⟨rfl, C4_mask_deterministic sampleRaster sampleRasterAlt 2 rfl⟩

/-- C5: `process_thresholds` iterates the thresholds in the given sequence
order; for each threshold its trace is the masking write to the raster path
derived from the input stem and threshold, then the polygonize run to the
derived vector path, then — exactly when the layer validates — the registry
addition (invalid layers are silently dropped); and the returned list is
exactly the successfully loaded layers, i.e. the per-threshold layers
filtered by validity. -/
theorem C5_process_thresholds_spec (env : Env) (inPath outDir : String)
    (ts : List ℚ) :
    (process_thresholds env inPath outDir ts).1
      = ts.flatMap (eventsFor env inPath outDir) ∧
    (process_thresholds env inPath outDir ts).2
      = (ts.map (mkLayer env outDir inPath)).filter env.isValid := by
  rw [process_thresholds_eq]
  exact ⟨rfl, rfl⟩

/-- C6: the folder orchestration runs the per-raster processing once for
each `.asc` file of the listing, in order; with `N` such files and `M`
thresholds it invokes polygonization exactly `N * M` times, the written
artifact paths are exactly the ones derived from each input stem and
threshold, and it loads at most `N * M` layers — exactly `N * M` when every
validity check passes, so fewer only if validity checks fail. -/
theorem C6_folder_orchestration (env : Env) (listing : List String)
    (inputDir outDir : String) (ts : List ℚ) :
    process_rasters_in_folder env listing inputDir outDir ts
      = (listing.filter (fun f => endsWithAsc f)).flatMap
          (fun f => (process_thresholds env (pathJoin inputDir f) outDir ts).1) ∧
    countPolygonize (process_rasters_in_folder env listing inputDir outDir ts)
      = (listing.filter (fun f => endsWithAsc f)).length * ts.length ∧
    artifactPaths (process_rasters_in_folder env listing inputDir outDir ts)
      = plannedPaths env listing inputDir outDir ts ∧
    countAddLayer (process_rasters_in_folder env listing inputDir outDir ts)
      ≤ (listing.filter (fun f => endsWithAsc f)).length * ts.length ∧
    ((∀ l, env.isValid l = true) →
      countAddLayer (process_rasters_in_folder env listing inputDir outDir ts)
        = (listing.filter (fun f => endsWithAsc f)).length * ts.length) :=
  ⟨process_rasters_in_folder_eq env listing inputDir outDir ts,
   countPolygonize_folder env listing inputDir outDir ts,
   artifactPaths_folder env listing inputDir outDir ts,
   countAddLayer_folder_le env listing inputDir outDir ts,
   countAddLayer_folder_all_valid env listing inputDir outDir ts⟩

theorem C6_witness :
    (∀ l, sampleEnv.isValid l = true) ∧
    countAddLayer (process_rasters_in_folder sampleEnv ["x.asc", "y.asc"]
        "in" "out" [1, 2])
      = ((["x.asc", "y.asc"] : List String).filter
          (fun f => endsWithAsc f)).length * ([1, 2] : List ℚ).length :=
  ⟨fun _ => rfl,
   (C6_folder_orchestration sampleEnv ["x.asc", "y.asc"] "in" "out" [1, 2]).2.2.2.2
     (fun _ => rfl)⟩

/-- C7: on a directory listing containing no `.asc` file (in particular an
empty directory), the folder orchestration produces an empty trace — no
file is written, no polygonization runs, no layer is loaded, and no fault
arises (the function is total). -/
theorem C7_no_asc_files (env : Env) (listing : List String)
    (inputDir outDir : String) (ts : List ℚ)
    (h : listing.filter (fun f => endsWithAsc f) = []) :
    process_rasters_in_folder env listing inputDir outDir ts = [] := by
  rw [process_rasters_in_folder_eq, h]
  rfl

theorem C7_witness :
    (["notes.txt", "readme.md"] : List String).filter (fun f => endsWithAsc f)
      = [] ∧
    process_rasters_in_folder sampleEnv ["notes.txt", "readme.md"]
      "in" "out" [1, 2] = [] :=
  ⟨by decide,
   C7_no_asc_files sampleEnv ["notes.txt", "readme.md"] "in" "out" [1, 2]
     (by decide)⟩

/-- C8: a threshold list containing a duplicated value makes the loop run
the full masking-plus-polygonization pipeline independently once per
occurrence, with no deduplication: the trace contains the identical event
block (same derived raster path, same written dataset, same polygonize call)
once for each occurrence of the duplicated threshold, and a validating
duplicated layer is likewise returned once per occurrence. -/
theorem C8_duplicate_thresholds (env : Env) (inPath outDir : String)
    (t : ℚ) (ts1 ts2 ts3 : List ℚ) :
    (process_thresholds env inPath outDir (ts1 ++ t :: ts2 ++ t :: ts3)).1
      = (process_thresholds env inPath outDir ts1).1
        ++ eventsFor env inPath outDir t
        ++ (process_thresholds env inPath outDir ts2).1
        ++ eventsFor env inPath outDir t
        ++ (process_thresholds env inPath outDir ts3).1 ∧
    (process_thresholds env inPath outDir (ts1 ++ t :: ts2 ++ t :: ts3)).2
      = (process_thresholds env inPath outDir ts1).2
        ++ (if env.isValid (mkLayer env outDir inPath t)
            then [mkLayer env outDir inPath t] else [])
        ++ (process_thresholds env inPath outDir ts2).2
        ++ (if env.isValid (mkLayer env outDir inPath t)
            then [mkLayer env outDir inPath t] else [])
        ++ (process_thresholds env inPath outDir ts3).2 := by
  constructor
  · simp [process_thresholds_eq]
  · simp only [process_thresholds_eq, List.map_append, List.map_cons,
      List.filter_append, List.filter_cons]
    cases h : env.isValid (mkLayer env outDir inPath t) <;> simp [h]

/-- C9 counterexample: the claim that no previously written file is ever
overwritten fails on the code. With the single input file `x.asc` and the
threshold list `[1, 1]` — duplicates are permitted, nothing deduplicates —
the run derives the same raster and vector paths for both occurrences, so
the list of written artifact paths contains duplicates: the second pass
overwrites the files the first pass wrote. -/
theorem C9_counterexample :
    ¬ (artifactPaths (process_rasters_in_folder sampleEnv ["x.asc"]
        "in" "out" [1, 1])).Nodup := by
  intro h
  rw [artifactPaths_folder] at h
  have e : plannedPaths sampleEnv ["x.asc"] "in" "out" [1, 1]
      = [outputRasterPath sampleEnv.fmt "out" (pathJoin "in" "x.asc") 1,
         outputVectorPath sampleEnv.fmt "out" (pathJoin "in" "x.asc") 1,
         outputRasterPath sampleEnv.fmt "out" (pathJoin "in" "x.asc") 1,
         outputVectorPath sampleEnv.fmt "out" (pathJoin "in" "x.asc") 1] := rfl
  rw [e] at h
  rcases List.nodup_cons.mp h with ⟨hmem, _⟩
  exact hmem (List.mem_cons_of_mem _ (List.mem_cons_self _ _))

/-- C9 amended: each (input file, threshold) occurrence creates its raster
and polygon artifacts exactly once — the written paths of a run are exactly
the planned ones, one raster and one vector path per occurrence in order —
and the registry of loaded layers is append-only: the layers returned for a
threshold-list prefix form a prefix of those returned for the extended list,
and nothing is removed. Provided the planned output paths are pairwise
distinct (as with distinct stems and distinct, injectively formatted
thresholds), no previously written file is overwritten. -/
theorem C9_create_once_no_overwrite (env : Env) (listing : List String)
    (inputDir outDir inPath : String) (ts ts2 : List ℚ)
    (h : (plannedPaths env listing inputDir outDir ts).Nodup) :
    artifactPaths (process_rasters_in_folder env listing inputDir outDir ts)
      = plannedPaths env listing inputDir outDir ts ∧
    (artifactPaths (process_rasters_in_folder env listing inputDir outDir ts)).Nodup ∧
    (process_thresholds env inPath outDir ts).2
      <+: (process_thresholds env inPath outDir (ts ++ ts2)).2 := by
  refine ⟨artifactPaths_folder env listing inputDir outDir ts, ?_, ?_⟩
  · rw [artifactPaths_folder]
    exact h
  · rw [process_thresholds_eq, process_thresholds_eq]
    simp only [List.map_append, List.filter_append]
    exact ⟨_, rfl⟩

theorem C9_witness :
    (plannedPaths sampleEnv ["x.asc"] "in" "out" [1, 2]).Nodup ∧
    (artifactPaths (process_rasters_in_folder sampleEnv ["x.asc"]
        "in" "out" [1, 2])).Nodup ∧
    (process_thresholds sampleEnv "in/x.asc" "out" [1, 2]).2
      <+: (process_thresholds sampleEnv "in/x.asc" "out" ([1, 2] ++ [1])).2 :=
  ⟨by decide,
   (C9_create_once_no_overwrite sampleEnv ["x.asc"] "in" "out" "in/x.asc"
      [1, 2] [1] (by decide)).2.1,
   (C9_create_once_no_overwrite sampleEnv ["x.asc"] "in" "out" "in/x.asc"
      [1, 2] [1] (by decide)).2.2⟩

/-- C10: the output stem is the portion of the input file's basename before
its FIRST dot — for a basename `pre ++ "." ++ rest` with no dot in `pre`,
everything after the first dot is dropped and the stem is `pre` — so two
distinct files of the same directory whose names agree up to their first dot
(such as `a.b.asc` and `a.c.asc`) derive identical thresholded-raster and
polygon output paths within a single run. -/
theorem C10_stem_before_first_dot (fmt : ℚ → String)
    (dir outDir f1 f2 : String) (t : ℚ) (pre r1 r2 : List Char)
    (hpre : '.' ∉ pre)
    (hs1 : '/' ∉ f1.data) (hs2 : '/' ∉ f2.data)
    (hf1 : f1.data = pre ++ '.' :: r1) (hf2 : f2.data = pre ++ '.' :: r2) :
    stemOf (pathJoin dir f1) = ⟨pre⟩ ∧
    outputRasterPath fmt outDir (pathJoin dir f1) t
      = outputRasterPath fmt outDir (pathJoin dir f2) t ∧
    outputVectorPath fmt outDir (pathJoin dir f1) t
      = outputVectorPath fmt outDir (pathJoin dir f2) t := by
  have h1 : stemOf (pathJoin dir f1) = ⟨pre⟩ := by
    refine stemOf_first_dot _ pre r1 ?_ hpre
    rw [basename_pathJoin dir f1 hs1]
    exact hf1
  have h2 : stemOf (pathJoin dir f2) = ⟨pre⟩ := by
    refine stemOf_first_dot _ pre r2 ?_ hpre
    rw [basename_pathJoin dir f2 hs2]
    exact hf2
  refine ⟨h1, ?_, ?_⟩ <;>
    simp [outputRasterPath, outputVectorPath, h1, h2]

theorem C10_witness :
    ('.' ∉ ['a']) ∧
    ('/' ∉ ("a.b.asc" : String).data) ∧ ('/' ∉ ("a.c.asc" : String).data) ∧
    (("a.b.asc" : String).data = ['a'] ++ '.' :: "b.asc".data) ∧
    (("a.c.asc" : String).data = ['a'] ++ '.' :: "c.asc".data) ∧
    (stemOf (pathJoin "in" "a.b.asc") = ⟨['a']⟩ ∧
     outputRasterPath sampleEnv.fmt "out" (pathJoin "in" "a.b.asc") 1
       = outputRasterPath sampleEnv.fmt "out" (pathJoin "in" "a.c.asc") 1 ∧
     outputVectorPath sampleEnv.fmt "out" (pathJoin "in" "a.b.asc") 1
       = outputVectorPath sampleEnv.fmt "out" (pathJoin "in" "a.c.asc") 1) :=
  ⟨by decide, by decide, by decide, by decide, by decide,
   C10_stem_before_first_dot sampleEnv.fmt "in" "out" "a.b.asc" "a.c.asc" 1
     ['a'] "b.asc".data "c.asc".data
     (by decide) (by decide) (by decide) (by decide) (by decide)⟩

end ThresholdScript
